import Mathlib

/-!
Verification of the `domrs`-style HTML DOM builder (`src/lib.rs`).

The development shallowly embeds the data model (`HtmlAttribute`,
`HtmlElement`, `HtmlDocument`), the builder operations (`new`, `new_void`,
`new_div`, `set_attr`, `set_class`, `add_child`, `add_child_opt`,
`add_children`, `set_content`) and the recursive serializer
(`HtmlElement.write`, plus the `Display` implementations) as executable Lean
functions, and proves the documented properties of the serializer.

Mutable-buffer convention: the Rust serializer appends to a `&mut String`
buffer; it is embedded as a function `write : HtmlElement → Nat → String →
String` that takes the buffer before the call and returns the buffer after
the call.
-/

/-- New-line character (`NL` in the source). -/
def NL : Char := '\n'

/-- White-space string (`WS` in the source). -/
def WS : String := " "

/-- Common indentation value (`INDENT` in the source). -/
def INDENT : Nat := 2

/-- Reference of the HTML standard (`HREF_XMLNS`). -/
def HREF_XMLNS : String := "http://www.w3.org/1999/xhtml"

/-- Download link for normal font (`HREF_FONT_NORMAL`). -/
def HREF_FONT_NORMAL : String :=
  "https://fonts.googleapis.com/css2?family=Barlow:ital,wght@0,300;0,400;0,500;0,600;1,300;1,400;1,500;1,600&display=swap"

/-- Download link for condensed font (`HREF_FONT_CONDENSED`). -/
def HREF_FONT_CONDENSED : String :=
  "https://fonts.googleapis.com/css2?family=Barlow+Condensed:ital,wght@0,300;0,400;0,500;0,600;1,300;1,400;1,500;1,600&display=swap"

/-- Download link for monospaced font (`HREF_FONT_MONO`). -/
def HREF_FONT_MONO : String :=
  "https://fonts.googleapis.com/css2?family=JetBrains+Mono:ital,wght@0,300;0,400;0,500;0,600;1,300;1,400;1,500;1,600&display=swap"

/-- An HTML attribute: `struct HtmlAttribute { name: String, value: String }`. -/
structure HtmlAttribute where
  name : String
  value : String
deriving DecidableEq, Repr

/-- An HTML element: `struct HtmlElement { name, attributes, content, children, void }`. -/
inductive HtmlElement : Type where
  | mk (name : String) (attributes : List HtmlAttribute) (content : Option String)
       (children : List HtmlElement) (void : Bool)

/-- Field accessor for `HtmlElement.name`. -/
def HtmlElement.name : HtmlElement → String
  | .mk n _ _ _ _ => n

/-- Field accessor for `HtmlElement.attributes`. -/
def HtmlElement.attributes : HtmlElement → List HtmlAttribute
  | .mk _ a _ _ _ => a

/-- Field accessor for `HtmlElement.content`. -/
def HtmlElement.content : HtmlElement → Option String
  | .mk _ _ c _ _ => c

/-- Field accessor for `HtmlElement.children`. -/
def HtmlElement.children : HtmlElement → List HtmlElement
  | .mk _ _ _ ch _ => ch

/-- Field accessor for `HtmlElement.void`. -/
def HtmlElement.void : HtmlElement → Bool
  | .mk _ _ _ _ v => v

/-- Rust `HtmlElement::new(name)`: non-void element, no attributes, content or children. -/
def HtmlElement.new (name : String) : HtmlElement :=
  .mk name [] none [] false

/-- Rust `HtmlElement::new_void(name)`: void element, no attributes, content or children. -/
def HtmlElement.new_void (name : String) : HtmlElement :=
  .mk name [] none [] true

/-- Rust `HtmlElement::set_attr(name, value)`: pushes a new attribute (value already stringified). -/
def HtmlElement.set_attr : HtmlElement → String → String → HtmlElement
  | .mk n a c ch v, name, value => .mk n (a ++ [⟨name, value⟩]) c ch v

/-- Rust `HtmlElement::set_class(class)`: pushes a `class` attribute. -/
def HtmlElement.set_class : HtmlElement → String → HtmlElement
  | .mk n a c ch v, className => .mk n (a ++ [⟨"class", className⟩]) c ch v

/-- Rust `HtmlElement::new_div(class)`: a `div`, optionally with a `class` attribute. -/
def HtmlElement.new_div (className : Option String) : HtmlElement :=
  match className with
  | some cn => (HtmlElement.new "div").set_class cn
  | none => HtmlElement.new "div"

/-- Rust `HtmlElement::add_child(e)`: pushes a child element. -/
def HtmlElement.add_child : HtmlElement → HtmlElement → HtmlElement
  | .mk n a c ch v, e => .mk n a c (ch ++ [e]) v

/-- Rust `HtmlElement::add_child_opt(e)`: pushes the child if present. -/
def HtmlElement.add_child_opt (e : HtmlElement) (oe : Option HtmlElement) : HtmlElement :=
  match oe with
  | some c => e.add_child c
  | none => e

/-- Rust `HtmlElement::add_children(elements)`: pushes each element in order. -/
def HtmlElement.add_children (e : HtmlElement) (elements : List HtmlElement) : HtmlElement :=
  elements.foldl HtmlElement.add_child e

/-- Rust `HtmlElement::set_content(content)`: sets (overwrites) the content. -/
def HtmlElement.set_content : HtmlElement → String → HtmlElement
  | .mk n a _ ch v, content => .mk n a (some content) ch v

/-- The text produced by the Rust format specifier `{:i$}` applied to `WS`:
the one-space string is padded with spaces up to minimum field width `width`,
so exactly `max 1 width` spaces are emitted (padding never truncates). -/
def wsPad (width : Nat) : String :=
  String.mk (List.replicate (max 1 width) ' ')

/-- The attribute loop of `HtmlElement::write`: for each attribute in order,
emit ` name="value"`. -/
def attrsToString : List HtmlAttribute → String
  | [] => ""
  | a :: rest => " " ++ a.name ++ "=\"" ++ a.value ++ "\"" ++ attrsToString rest

/-- Split a character list at every newline character, keeping all (possibly
empty) segments; the result always has one more segment than there are
newlines. -/
def splitNLChars : List Char → List (List Char)
  | [] => [[]]
  | c :: rest =>
    if c = '\n' then [] :: splitNLChars rest
    else
      match splitNLChars rest with
      | [] => [[c]]
      | l :: ls => (c :: l) :: ls

/-- Strip one trailing carriage return, as Rust's `str::lines` does for a
`\r\n` line ending. -/
def stripCR (l : List Char) : List Char :=
  if l.getLast? = some '\r' then l.dropLast else l

/-- Strip a trailing carriage return from every segment except the last one
(the last segment is not followed by a newline). -/
def stripCRMidLines : List (List Char) → List (List Char)
  | [] => []
  | [l] => [l]
  | l :: ls => stripCR l :: stripCRMidLines ls

/-- Rust's `str::lines()`: split on `\n` (a `\r` immediately before a `\n` is
removed); a final trailing newline does not produce an extra empty line, and
the empty string has no lines. -/
def rustLines (s : String) : List String :=
  let parts := splitNLChars s.data
  if parts.getLast? = some [] then
    ((parts.dropLast).map stripCR).map String.mk
  else
    (stripCRMidLines parts).map String.mk

/-- Rust's `slice::join(sep)` on string slices. -/
def rustJoin (parts : List String) (sep : String) : String :=
  match parts with
  | [] => ""
  | [s] => s
  | s :: rest => s ++ sep ++ rustJoin rest sep

mutual

/-- Rust `HtmlElement::write(indent, buffer)`, the serializer.  The Rust function
appends to `buffer`; here the buffer is passed in and the extended buffer is
returned.  Faithful to the source: the opening line pads `WS` to field width
`indent` (`wsPad`), attributes are emitted in order, then the tail is chosen
by the children / content / void case analysis. -/
def HtmlElement.write : HtmlElement → Nat → String → String
  | .mk name attrs content children void, indent, buffer =>
    let b := buffer ++ wsPad indent ++ "<" ++ name ++ attrsToString attrs
    match children with
    | [] =>
      match content with
      | some c =>
        if (rustLines c).length > 1 then
          writeContentLines (rustLines c) (indent + INDENT) (b ++ ">")
            ++ "\n" ++ wsPad indent ++ "</" ++ name ++ ">"
        else
          b ++ ">" ++ c ++ "</" ++ name ++ ">"
      | none => b ++ (if void then ">" else "/>")
    | c0 :: cs =>
      writeRestChildren cs (indent + INDENT)
          (HtmlElement.write c0 (indent + INDENT) (b ++ ">" ++ "\n"))
        ++ "\n" ++ wsPad indent ++ "</" ++ name ++ ">"

/-- The multi-line content loop of `HtmlElement::write`: for each line, emit a
newline, the indent pad, and the line. -/
def writeContentLines : List String → Nat → String → String
  | [], _, b => b
  | l :: ls, i, b => writeContentLines ls i (b ++ "\n" ++ wsPad i ++ l)

/-- The children loop of `HtmlElement::write` after the first child: each
further child is preceded by a newline and written at the same indent. -/
def writeRestChildren : List HtmlElement → Nat → String → String
  | [], _, b => b
  | c :: cs, i, b => writeRestChildren cs i (HtmlElement.write c i (b ++ "\n"))

end

/-- Rust `impl fmt::Display for HtmlElement`: serialize at indent 0 into a fresh
buffer. -/
def HtmlElement.toText (e : HtmlElement) : String :=
  e.write 0 ""

/-- Structure representing a whole HTML document: `struct HtmlDocument { root }`. -/
structure HtmlDocument where
  root : HtmlElement

/-- Rust `HtmlDocument::new(lang, styles, body)`: builds the fixed
`<html><head>…</head>body</html>` skeleton. -/
def HtmlDocument.new (lang : String) (styles : List String) (body : HtmlElement) : HtmlDocument :=
  let root := ((HtmlElement.new "html").set_attr "lang" lang).set_attr "xmlns" HREF_XMLNS
  let head := HtmlElement.new "head"
  let meta := (HtmlElement.new_void "meta").set_attr "charset" "UTF-8"
  let head := head.add_child meta
  let title := (HtmlElement.new "title").set_content "DMN Model"
  let head := head.add_child title
  let linkNormal := ((HtmlElement.new_void "link").set_attr "rel" "stylesheet").set_attr "href" HREF_FONT_NORMAL
  let head := head.add_child linkNormal
  let linkCondensed := ((HtmlElement.new_void "link").set_attr "rel" "stylesheet").set_attr "href" HREF_FONT_CONDENSED
  let head := head.add_child linkCondensed
  let linkMono := ((HtmlElement.new_void "link").set_attr "rel" "stylesheet").set_attr "href" HREF_FONT_MONO
  let head := head.add_child linkMono
  let style := (HtmlElement.new "style").set_content (rustJoin styles "\n")
  let head := head.add_child style
  let root := root.add_child head
  let root := root.add_child body
  ⟨root⟩

/-- Rust `impl fmt::Display for HtmlDocument`: a `<!DOCTYPE html>` line, then the
root serialized at indent 0. -/
def HtmlDocument.toText (d : HtmlDocument) : String :=
  d.root.write 0 ("<!DOCTYPE html>" ++ "\n")

/-- Split a string into its newline-separated lines, keeping empty segments
(the inverse of joining with `"\n"`); used to state claims about output lines. -/
def linesOf (s : String) : List String :=
  (splitNLChars s.data).map String.mk

/-- Number of leading space characters of a line. -/
def leadingSpaces : List Char → Nat
  | [] => 0
  | c :: rest => if c = ' ' then leadingSpaces rest + 1 else 0

/-- Substring test on character lists. -/
def containsSub (pat : List Char) : List Char → Bool
  | [] => pat.isEmpty
  | c :: rest => pat.isPrefixOf (c :: rest) || containsSub pat rest

/-- Apply a sequence of `set_attr` calls, in order. -/
def applyAttrCalls (e : HtmlElement) (calls : List (String × String)) : HtmlElement :=
  calls.foldl (fun e p => e.set_attr p.1 p.2) e

/-- Concatenation of the strings produced from a list; spec-side helper used
to state loop unrollings. -/
def concatMapStr (f : α → String) : List α → String
  | [] => ""
  | a :: as => f a ++ concatMapStr f as

/-- The body element of the end-to-end document scenario: a `body` element
containing one `div`. -/
def bodyWithOneDiv : HtmlElement :=
  (HtmlElement.new "body").add_child (HtmlElement.new_div none)

/-- The end-to-end scenario document:
`HtmlDocument::new("en", ["body{color:red}"], bodyWithOneDiv)`. -/
def docEn : HtmlDocument :=
  HtmlDocument.new "en" ["body\x7bcolor:red\x7d"] bodyWithOneDiv

mutual

/-- Induction over the element tree: to prove `P` for every element it
suffices to prove it for `mk …` assuming it for every child. -/
theorem HtmlElement.indOn (P : HtmlElement → Prop)
    (h : ∀ (n : String) (a : List HtmlAttribute) (co : Option String)
      (ch : List HtmlElement) (v : Bool),
      (∀ e, e ∈ ch → P e) → P (.mk n a co ch v)) :
    ∀ e, P e
  | .mk n a co ch v => h n a co ch v (HtmlElement.indOnList P h ch)

/-- List form of `HtmlElement.indOn`. -/
theorem HtmlElement.indOnList (P : HtmlElement → Prop)
    (h : ∀ (n : String) (a : List HtmlAttribute) (co : Option String)
      (ch : List HtmlElement) (v : Bool),
      (∀ e, e ∈ ch → P e) → P (.mk n a co ch v)) :
    ∀ (ch : List HtmlElement), ∀ e, e ∈ ch → P e
  | [], e, he => absurd he (List.not_mem_nil e)
  | c :: cs, e, he => by
    cases he with
    | head => exact HtmlElement.indOn P h c
    | tail _ hmem => exact HtmlElement.indOnList P h cs e hmem

end

/-- The multi-line content loop only appends: unrolling it appends, per line,
a newline, the pad, and the line. -/
theorem writeContentLines_join (ls : List String) (i : Nat) (b : String) :
    writeContentLines ls i b = b ++ concatMapStr (fun l => "\n" ++ wsPad i ++ l) ls := by
  induction ls generalizing b with
  | nil => simp [writeContentLines, concatMapStr]
  | cons l ls ih =>
    simp only [writeContentLines, concatMapStr]
    rw [ih]
    simp [String.append_assoc]

/-- The children loop only appends, provided each listed child's `write` only
appends. -/
theorem writeRestChildren_append_of (cs : List HtmlElement)
    (H : ∀ e, e ∈ cs → ∀ i b, e.write i b = b ++ e.write i "") :
    ∀ i b, writeRestChildren cs i b = b ++ writeRestChildren cs i "" := by
  induction cs with
  | nil => intro i b; simp [writeRestChildren]
  | cons c cs ih =>
    intro i b
    simp only [writeRestChildren]
    rw [H c (List.mem_cons_self c cs) i (b ++ "\n"),
        H c (List.mem_cons_self c cs) i ("" ++ "\n"),
        ih (fun e he i b => H e (List.mem_cons_of_mem c he) i b) i
          ((b ++ "\n") ++ HtmlElement.write c i ""),
        ih (fun e he i b => H e (List.mem_cons_of_mem c he) i b) i
          ((("" : String) ++ "\n") ++ HtmlElement.write c i "")]
    simp [String.append_assoc]

/-- Function `HtmlElement.write` only appends to the buffer: the appended text is a
function of the element and the indent alone. -/
theorem HtmlElement.write_append :
    ∀ (e : HtmlElement) (i : Nat) (b : String), e.write i b = b ++ e.write i "" := by
  intro e
  refine HtmlElement.indOn (fun e => ∀ i b, e.write i b = b ++ e.write i "") ?_ e
  intro n a co ch v ih i b
  cases ch with
  | nil =>
    cases co with
    | none =>
      simp only [HtmlElement.write]
      simp [String.append_assoc]
    | some c =>
      by_cases h : (rustLines c).length > 1
      · simp only [HtmlElement.write, if_pos h]
        rw [writeContentLines_join, writeContentLines_join]
        simp [String.append_assoc]
      · simp only [HtmlElement.write, if_neg h]
        simp [String.append_assoc]
  | cons c0 cs =>
    have hc0 : ∀ bb, HtmlElement.write c0 (i + INDENT) bb
        = bb ++ HtmlElement.write c0 (i + INDENT) "" :=
      fun bb => ih c0 (List.mem_cons_self c0 cs) (i + INDENT) bb
    have hrest : ∀ bb, writeRestChildren cs (i + INDENT) bb
        = bb ++ writeRestChildren cs (i + INDENT) "" :=
      writeRestChildren_append_of cs
        (fun e he i b => ih e (List.mem_cons_of_mem c0 he) i b) (i + INDENT)
    simp only [HtmlElement.write]
    rw [hc0 ((b ++ wsPad i ++ "<" ++ n ++ attrsToString a) ++ ">" ++ "\n"),
        hrest (((b ++ wsPad i ++ "<" ++ n ++ attrsToString a) ++ ">" ++ "\n")
          ++ HtmlElement.write c0 (i + INDENT) ""),
        hc0 ((("" : String) ++ wsPad i ++ "<" ++ n ++ attrsToString a) ++ ">" ++ "\n"),
        hrest (((("" : String) ++ wsPad i ++ "<" ++ n ++ attrsToString a) ++ ">" ++ "\n")
          ++ HtmlElement.write c0 (i + INDENT) "")]
    simp [String.append_assoc]

/-- Closed form of the children loop: every further child contributes a
newline followed by its own serialization. -/
theorem writeRestChildren_join (cs : List HtmlElement) (i : Nat) (b : String) :
    writeRestChildren cs i b
      = b ++ concatMapStr (fun c => "\n" ++ c.write i "") cs := by
  induction cs generalizing b with
  | nil => simp [writeRestChildren, concatMapStr]
  | cons c cs ih =>
    simp only [writeRestChildren, concatMapStr]
    rw [HtmlElement.write_append c i (b ++ "\n"), ih]
    simp [String.append_assoc]

/-- Closed form of `write` on an element with no children and no content. -/
theorem write_leaf (n : String) (a : List HtmlAttribute) (v : Bool) (i : Nat) (b : String) :
    HtmlElement.write (.mk n a none [] v) i b
      = b ++ wsPad i ++ "<" ++ n ++ attrsToString a ++ (if v then ">" else "/>") := rfl

/-- Closed form of `write` on a childless element whose content does not have
more than one line. -/
theorem write_singleline (n : String) (a : List HtmlAttribute) (s : String) (v : Bool)
    (i : Nat) (b : String) (h : ¬ (rustLines s).length > 1) :
    HtmlElement.write (.mk n a (some s) [] v) i b
      = b ++ wsPad i ++ "<" ++ n ++ attrsToString a ++ ">" ++ s ++ "</" ++ n ++ ">" := by
  simp only [HtmlElement.write, if_neg h]

/-- Closed form of `write` on a childless element whose content has more than
one line. -/
theorem write_multiline (n : String) (a : List HtmlAttribute) (s : String) (v : Bool)
    (i : Nat) (b : String) (h : (rustLines s).length > 1) :
    HtmlElement.write (.mk n a (some s) [] v) i b
      = b ++ wsPad i ++ "<" ++ n ++ attrsToString a ++ ">"
        ++ concatMapStr (fun l => "\n" ++ wsPad (i + INDENT) ++ l) (rustLines s)
        ++ "\n" ++ wsPad i ++ "</" ++ n ++ ">" := by
  simp only [HtmlElement.write, if_pos h]
  rw [writeContentLines_join]

/-- Closed form of `write` on an element with at least one child. -/
theorem write_children (n : String) (a : List HtmlAttribute) (co : Option String)
    (c0 : HtmlElement) (cs : List HtmlElement) (v : Bool) (i : Nat) (b : String) :
    HtmlElement.write (.mk n a co (c0 :: cs) v) i b
      = b ++ wsPad i ++ "<" ++ n ++ attrsToString a ++ ">" ++ "\n"
        ++ c0.write (i + INDENT) ""
        ++ concatMapStr (fun c => "\n" ++ c.write (i + INDENT) "") cs
        ++ "\n" ++ wsPad i ++ "</" ++ n ++ ">" := by
  simp only [HtmlElement.write]
  rw [HtmlElement.write_append c0 (i + INDENT)
        ((b ++ wsPad i ++ "<" ++ n ++ attrsToString a) ++ ">" ++ "\n"),
      writeRestChildren_join]

/-- Operation `set_attr` appends one attribute and changes nothing else. -/
theorem set_attr_attributes (e : HtmlElement) (nm vl : String) :
    (e.set_attr nm vl).attributes = e.attributes ++ [⟨nm, vl⟩] := by
  cases e; rfl

/-- A sequence of `set_attr` calls appends the corresponding attributes in
call order. -/
theorem applyAttrCalls_mk (calls : List (String × String)) :
    ∀ (n : String) (a : List HtmlAttribute) (co : Option String)
      (ch : List HtmlElement) (v : Bool),
      applyAttrCalls (.mk n a co ch v) calls
        = .mk n (a ++ calls.map fun p => HtmlAttribute.mk p.1 p.2) co ch v := by
  induction calls with
  | nil => intro n a co ch v; simp [applyAttrCalls]
  | cons p ps ih =>
    intro n a co ch v
    simp only [applyAttrCalls, List.foldl_cons] at *
    rw [show HtmlElement.set_attr (.mk n a co ch v) p.1 p.2
          = .mk n (a ++ [HtmlAttribute.mk p.1 p.2]) co ch v from rfl, ih]
    simp

/-- The attribute loop emits exactly one ` name="value"` chunk per call, in
call order. -/
theorem attrsToString_map (calls : List (String × String)) :
    attrsToString (calls.map fun p => HtmlAttribute.mk p.1 p.2)
      = concatMapStr (fun p => " " ++ p.1 ++ "=\"" ++ p.2 ++ "\"") calls := by
  induction calls with
  | nil => rfl
  | cons p ps ih =>
    simp only [List.map_cons, attrsToString, concatMapStr, ih]

/-- Every serialization starts with the pad, `<`, the element name and the
attribute text, whatever the tail case. -/
theorem write_openingA (n : String) (a : List HtmlAttribute) (co : Option String)
    (ch : List HtmlElement) (v : Bool) (i : Nat) (b : String) :
    ∃ t, HtmlElement.write (.mk n a co ch v) i b
      = b ++ wsPad i ++ "<" ++ n ++ attrsToString a ++ t := by
  cases ch with
  | cons c0 cs =>
    refine ⟨">" ++ "\n" ++ c0.write (i + INDENT) ""
      ++ concatMapStr (fun c => "\n" ++ c.write (i + INDENT) "") cs
      ++ "\n" ++ wsPad i ++ "</" ++ n ++ ">", ?_⟩
    rw [write_children]
    simp [String.append_assoc]
  | nil =>
    cases co with
    | none =>
      exact ⟨(if v then ">" else "/>"), write_leaf n a v i b⟩
    | some s =>
      by_cases h : (rustLines s).length > 1
      · refine ⟨">" ++ concatMapStr (fun l => "\n" ++ wsPad (i + INDENT) ++ l) (rustLines s)
          ++ "\n" ++ wsPad i ++ "</" ++ n ++ ">", ?_⟩
        rw [write_multiline n a s v i b h]
        simp [String.append_assoc]
      · refine ⟨">" ++ s ++ "</" ++ n ++ ">", ?_⟩
        rw [write_singleline n a s v i b h]
        simp [String.append_assoc]

/-- C3 (counterexample): for `p` with content `"a\nb"` at indent 0, the
serialized text is not the claimed `<p>\n  a\n  b\n</p>` — the opening and
closing tag lines are not flush left. -/
theorem c3_counterexample :
    HtmlElement.write (.mk "p" [] (some "a\nb") [] false) 0 "" ≠ "<p>\n  a\n  b\n</p>" := by
  decide

/-- C3 (amended): for `p` with content `"a\nb"` at indent 0 with unit 2, the
output is exactly the four lines ` <p>`, `  a`, `  b`, ` </p>`, newline
separated with no trailing newline: the content lines are indented two
spaces, while the opening and closing tags carry the serializer's one-space
minimum pad at indent 0. -/
theorem c3_theorem :
    HtmlElement.write (.mk "p" [] (some "a\nb") [] false) 0 "" = " <p>\n  a\n  b\n </p>"
  ∧ linesOf (HtmlElement.write (.mk "p" [] (some "a\nb") [] false) 0 "")
      = [" <p>", "  a", "  b", " </p>"] :=
  ⟨by decide, by decide⟩

/-- C4 (counterexample): for a root `div` whose single child `div` contains
text `"hi"`, the child's line is indented exactly one space more than the
parent's opening-tag line, not one full 2-space unit more. -/
theorem c4_counterexample :
    linesOf ((HtmlElement.new "div").add_child
        ((HtmlElement.new "div").set_content "hi")).toText
      = [" <div>", "  <div>hi</div>", " </div>"]
  ∧ leadingSpaces ("  <div>hi</div>").data ≠ leadingSpaces (" <div>").data + 2 :=
  ⟨by decide, by decide⟩

/-- C4 (amended): the nested-`div` root renders as ` <div>` / `  <div>hi</div>`
/ ` </div>`: the child sits one indentation unit (2 spaces) from the margin
while the root's opening line carries the one-space minimum pad (so the child
is one space deeper than the parent line), the closing tag is indented
exactly like the opening tag, and in general each child is serialized
recursively at indent `i + INDENT` with a newline before every child except
the first. -/
theorem c4_theorem :
    ((HtmlElement.new "div").add_child ((HtmlElement.new "div").set_content "hi")).toText
      = " <div>\n  <div>hi</div>\n </div>"
  ∧ leadingSpaces ("  <div>hi</div>").data = leadingSpaces (" <div>").data + 1
  ∧ leadingSpaces (" </div>").data = leadingSpaces (" <div>").data
  ∧ (∀ (n : String) (a : List HtmlAttribute) (co : Option String) (c0 : HtmlElement)
        (cs : List HtmlElement) (v : Bool) (i : Nat) (b : String),
        HtmlElement.write (.mk n a co (c0 :: cs) v) i b
          = b ++ wsPad i ++ "<" ++ n ++ attrsToString a ++ ">" ++ "\n"
            ++ c0.write (i + INDENT) ""
            ++ concatMapStr (fun c => "\n" ++ c.write (i + INDENT) "") cs
            ++ "\n" ++ wsPad i ++ "</" ++ n ++ ">") :=
  ⟨by decide, by decide, by decide, write_children⟩

/-- C5: with no children and no content, a void element's tag is closed with
`>` (never a self-closing slash) and a non-void element's with `/>`. -/
theorem c5_theorem (n : String) (a : List HtmlAttribute) (i : Nat) (b : String) :
    HtmlElement.write (.mk n a none [] true) i b
      = b ++ wsPad i ++ "<" ++ n ++ attrsToString a ++ ">"
  ∧ HtmlElement.write (.mk n a none [] false) i b
      = b ++ wsPad i ++ "<" ++ n ++ attrsToString a ++ "/>" := by
  constructor
  · simp [write_leaf]
  · simp [write_leaf]

/-- C6: when at least one child is present the content is ignored — the
output is byte-identical to the same element with content unset — and
`set_content` never touches the children sequence. -/
theorem c6_theorem :
    (∀ (n : String) (a : List HtmlAttribute) (s : String) (c0 : HtmlElement)
        (cs : List HtmlElement) (v : Bool) (i : Nat) (b : String),
        HtmlElement.write (.mk n a (some s) (c0 :: cs) v) i b
          = HtmlElement.write (.mk n a none (c0 :: cs) v) i b)
  ∧ (∀ (e : HtmlElement) (s : String), (e.set_content s).children = e.children) := by
  constructor
  · intro n a s c0 cs v i b
    rw [write_children, write_children]
  · intro e s; cases e; rfl

/-- C9: serialization is deterministic — `write` appends text that depends
only on the element and the indent level, so two calls with the same element
and indent append byte-identical text to any buffers. -/
theorem c9_theorem (e : HtmlElement) (i : Nat) (b₁ b₂ : String) :
    ∃ w, e.write i b₁ = b₁ ++ w ∧ e.write i b₂ = b₂ ++ w :=
  ⟨e.write i "", HtmlElement.write_append e i b₁, HtmlElement.write_append e i b₂⟩

/-- C2: every serialization emits exactly `max 1 i` spaces before the opening
`<` (the one-space pad string formatted at minimum field width `i`), likewise
before the closing tag in the children and multi-line-content cases, and
consequently every root serialized at indent 0 — the `<html>` root of every
document included — starts with exactly one space. -/
theorem c2_theorem :
    (∀ (e : HtmlElement) (i : Nat) (b : String),
        ∃ t, e.write i b
          = b ++ String.mk (List.replicate (max 1 i) ' ') ++ "<" ++ e.name ++ t)
  ∧ (∀ (n : String) (a : List HtmlAttribute) (co : Option String) (c0 : HtmlElement)
        (cs : List HtmlElement) (v : Bool) (i : Nat) (b : String),
        ∃ t, HtmlElement.write (.mk n a co (c0 :: cs) v) i b
          = t ++ ("\n" ++ String.mk (List.replicate (max 1 i) ' ') ++ "</" ++ n ++ ">"))
  ∧ (∀ (n : String) (a : List HtmlAttribute) (s : String) (v : Bool) (i : Nat) (b : String),
        (rustLines s).length > 1 →
        ∃ t, HtmlElement.write (.mk n a (some s) [] v) i b
          = t ++ ("\n" ++ String.mk (List.replicate (max 1 i) ' ') ++ "</" ++ n ++ ">"))
  ∧ (∀ (e : HtmlElement) (b : String), ∃ t, e.write 0 b = b ++ " <" ++ t)
  ∧ (∀ d : HtmlDocument, ∃ t, d.toText = "<!DOCTYPE html>" ++ "\n" ++ " <" ++ t) := by
  refine ⟨?_, ?_, ?_, ?_, ?_⟩
  · intro e i b
    cases e with
    | mk n a co ch v =>
      obtain ⟨t, ht⟩ := write_openingA n a co ch v i b
      refine ⟨attrsToString a ++ t, ?_⟩
      rw [ht]
      simp [wsPad, HtmlElement.name, String.append_assoc]
  · intro n a co c0 cs v i b
    refine ⟨b ++ wsPad i ++ "<" ++ n ++ attrsToString a ++ ">" ++ "\n"
      ++ c0.write (i + INDENT) ""
      ++ concatMapStr (fun c => "\n" ++ c.write (i + INDENT) "") cs, ?_⟩
    rw [write_children]
    simp [wsPad, String.append_assoc]
  · intro n a s v i b h
    refine ⟨b ++ wsPad i ++ "<" ++ n ++ attrsToString a ++ ">"
      ++ concatMapStr (fun l => "\n" ++ wsPad (i + INDENT) ++ l) (rustLines s), ?_⟩
    rw [write_multiline n a s v i b h]
    simp [wsPad, String.append_assoc]
  · intro e b
    cases e with
    | mk n a co ch v =>
      obtain ⟨t, ht⟩ := write_openingA n a co ch v 0 b
      refine ⟨n ++ attrsToString a ++ t, ?_⟩
      rw [ht]
      simp [show wsPad 0 = " " from rfl, show (" <" : String) = " " ++ "<" from rfl,
        String.append_assoc]
  · intro d
    cases d with
    | mk root =>
      cases root with
      | mk n a co ch v =>
        obtain ⟨t, ht⟩ := write_openingA n a co ch v 0 ("<!DOCTYPE html>" ++ "\n")
        refine ⟨n ++ attrsToString a ++ t, ?_⟩
        rw [show HtmlDocument.toText ⟨HtmlElement.mk n a co ch v⟩
              = (HtmlElement.mk n a co ch v).write 0 ("<!DOCTYPE html>" ++ "\n") from rfl, ht]
        simp [show wsPad 0 = " " from rfl, show (" <" : String) = " " ++ "<" from rfl,
          String.append_assoc]

/-- C2 witness: the multi-line closing-tag clause of `c2_theorem` at the
concrete element `p` with content `"a\nb"` at indent 5. -/
theorem c2_witness :
    (rustLines "a\nb").length > 1
  ∧ (∃ t, HtmlElement.write (.mk "p" [] (some "a\nb") [] false) 5 ""
      = t ++ ("\n" ++ String.mk (List.replicate (max 1 5) ' ') ++ "</" ++ "p" ++ ">")) :=
  ⟨by decide, c2_theorem.2.2.1 "p" [] "a\nb" false 5 "" (by decide)⟩

/-- C7 (counterexample): content `"x\n"` counts as a single line, so the
serializer emits it verbatim after `>`; the embedded newline puts `</p>` on a
second line, refuting the claim that the output is all on one line. -/
theorem c7_counterexample :
    HtmlElement.write (.mk "p" [] (some "x\n") [] false) 0 "" = " <p>x\n</p>"
  ∧ (linesOf (HtmlElement.write (.mk "p" [] (some "x\n") [] false) 0 "")).length ≠ 1 :=
  ⟨by decide, by decide⟩

/-- C7 (amended): with no children and content set, the multi-line format is
used exactly when the content has more than one line when split on newline;
otherwise `>`, the content verbatim and `</name>` are emitted immediately in
sequence — which is a single line only when the content itself contains no
newline: content `"x\n"` takes this branch yet its verbatim trailing newline
puts the closing tag on the next line. -/
theorem c7_theorem :
    (∀ (n : String) (a : List HtmlAttribute) (s : String) (v : Bool) (i : Nat) (b : String),
        (rustLines s).length > 1 →
        HtmlElement.write (.mk n a (some s) [] v) i b
          = b ++ wsPad i ++ "<" ++ n ++ attrsToString a ++ ">"
            ++ concatMapStr (fun l => "\n" ++ wsPad (i + INDENT) ++ l) (rustLines s)
            ++ "\n" ++ wsPad i ++ "</" ++ n ++ ">")
  ∧ (∀ (n : String) (a : List HtmlAttribute) (s : String) (v : Bool) (i : Nat) (b : String),
        ¬ (rustLines s).length > 1 →
        HtmlElement.write (.mk n a (some s) [] v) i b
          = b ++ wsPad i ++ "<" ++ n ++ attrsToString a ++ ">" ++ s ++ "</" ++ n ++ ">")
  ∧ HtmlElement.write (.mk "p" [] (some "x\n") [] false) 0 "" = " <p>x\n</p>" :=
  ⟨fun n a s v i b h => write_multiline n a s v i b h,
   fun n a s v i b h => write_singleline n a s v i b h,
   by decide⟩

/-- C7 witness: both clauses of `c7_theorem` at concrete inputs — the
multi-line clause at content `"a\nb"`, the single-line clause at content
`"x"`. -/
theorem c7_witness :
    ((rustLines "a\nb").length > 1
      ∧ HtmlElement.write (.mk "p" [] (some "a\nb") [] false) 1 "x"
          = "x" ++ wsPad 1 ++ "<" ++ "p" ++ attrsToString [] ++ ">"
            ++ concatMapStr (fun l => "\n" ++ wsPad (1 + INDENT) ++ l) (rustLines "a\nb")
            ++ "\n" ++ wsPad 1 ++ "</" ++ "p" ++ ">")
  ∧ (¬ (rustLines "x").length > 1
      ∧ HtmlElement.write (.mk "span" [] (some "x") [] false) 0 ""
          = "" ++ wsPad 0 ++ "<" ++ "span" ++ attrsToString [] ++ ">" ++ "x"
            ++ "</" ++ "span" ++ ">") :=
  ⟨⟨by decide, c7_theorem.1 "p" [] "a\nb" false 1 "x" (by decide)⟩,
   ⟨by decide, c7_theorem.2.1 "span" [] "x" false 0 "" (by decide)⟩⟩

/-- C8: a sequence of `set_attr`/`set_class` calls yields exactly one emitted
attribute per call, in call order, with no de-duplication: the attribute list
is the call list, its length counts every call, the opening tag emits one
` name="value"` chunk per call in order, and `set_class` is `set_attr` with
name `class`. -/
theorem c8_theorem :
    (∀ (e : HtmlElement) (calls : List (String × String)),
        (applyAttrCalls e calls).attributes
          = e.attributes ++ calls.map fun p => HtmlAttribute.mk p.1 p.2)
  ∧ (∀ (e : HtmlElement) (calls : List (String × String)),
        (applyAttrCalls e calls).attributes.length
          = e.attributes.length + calls.length)
  ∧ (∀ (n : String) (co : Option String) (ch : List HtmlElement) (v : Bool)
        (calls : List (String × String)) (i : Nat) (b : String),
        ∃ t, HtmlElement.write (applyAttrCalls (.mk n [] co ch v) calls) i b
          = b ++ wsPad i ++ "<" ++ n
            ++ concatMapStr (fun p => " " ++ p.1 ++ "=\"" ++ p.2 ++ "\"") calls ++ t)
  ∧ (∀ (e : HtmlElement) (c : String), e.set_class c = e.set_attr "class" c) := by
  refine ⟨?_, ?_, ?_, ?_⟩
  · intro e calls
    cases e with
    | mk n a co ch v => rw [applyAttrCalls_mk]; rfl
  · intro e calls
    cases e with
    | mk n a co ch v => rw [applyAttrCalls_mk]; simp [HtmlElement.attributes]
  · intro n co ch v calls i b
    rw [applyAttrCalls_mk]
    obtain ⟨t, ht⟩ := write_openingA n
      (([] : List HtmlAttribute) ++ calls.map fun p => HtmlAttribute.mk p.1 p.2) co ch v i b
    refine ⟨t, ?_⟩
    rw [ht]
    simp only [List.nil_append, attrsToString_map]
  · intro e c; cases e; rfl

/-- C10: setting content to the empty string is observable — a childless
non-void element with content `""` takes the single-line content branch and
renders `<name…></name>`, which differs from leaving content unset (which
renders `<name…/>`, or `<name…>` when void). -/
theorem c10_theorem (n : String) (a : List HtmlAttribute) (co : Option String)
    (i : Nat) (b : String) :
    ((HtmlElement.mk n a co [] false).set_content "").write i b
        = b ++ wsPad i ++ "<" ++ n ++ attrsToString a ++ ">" ++ "</" ++ n ++ ">"
  ∧ (HtmlElement.mk n a none [] false).write i b
        = b ++ wsPad i ++ "<" ++ n ++ attrsToString a ++ "/>"
  ∧ (HtmlElement.mk n a none [] true).write i b
        = b ++ wsPad i ++ "<" ++ n ++ attrsToString a ++ ">"
  ∧ ((HtmlElement.mk n a co [] false).set_content "").write i b
        ≠ (HtmlElement.mk n a none [] false).write i b
  ∧ ((HtmlElement.mk n a co [] true).set_content "").write i b
        ≠ (HtmlElement.mk n a none [] true).write i b := by
  have hsetf : (HtmlElement.mk n a co [] false).set_content ""
      = HtmlElement.mk n a (some "") [] false := rfl
  have hsett : (HtmlElement.mk n a co [] true).set_content ""
      = HtmlElement.mk n a (some "") [] true := rfl
  have hone : ¬ (rustLines "").length > 1 := by decide
  have hA : ((HtmlElement.mk n a co [] false).set_content "").write i b
      = b ++ wsPad i ++ "<" ++ n ++ attrsToString a ++ ">" ++ "</" ++ n ++ ">" := by
    rw [hsetf, write_singleline n a "" false i b hone]
    simp [String.append_empty]
  have hA' : ((HtmlElement.mk n a co [] true).set_content "").write i b
      = b ++ wsPad i ++ "<" ++ n ++ attrsToString a ++ ">" ++ "</" ++ n ++ ">" := by
    rw [hsett, write_singleline n a "" true i b hone]
    simp [String.append_empty]
  have hB : (HtmlElement.mk n a none [] false).write i b
      = b ++ wsPad i ++ "<" ++ n ++ attrsToString a ++ "/>" := by
    simp [write_leaf]
  have hC : (HtmlElement.mk n a none [] true).write i b
      = b ++ wsPad i ++ "<" ++ n ++ attrsToString a ++ ">" := by
    simp [write_leaf]
  refine ⟨hA, hB, hC, ?_, ?_⟩
  · intro heq
    rw [hA, hB] at heq
    have hlen := congrArg String.length heq
    simp only [String.length_append,
      show (">" : String).length = 1 from rfl,
      show ("</" : String).length = 2 from rfl, show ("/>" : String).length = 2 from rfl,
      show ("<" : String).length = 1 from rfl] at hlen
    omega
  · intro heq
    rw [hA', hC] at heq
    have hlen := congrArg String.length heq
    simp only [String.length_append,
      show (">" : String).length = 1 from rfl,
      show ("</" : String).length = 2 from rfl,
      show ("<" : String).length = 1 from rfl] at hlen
    omega

set_option maxRecDepth 100000 in
/-- C1 (counterexample): the displayed document text of
`HtmlDocument::new("en", ["body{color:red}"], bodyWithOneDiv)` does not
continue with `<html` immediately after the doctype line's newline — the root
element's opening tag is preceded by the serializer's one-space minimum pad. -/
theorem c1_counterexample :
    ("<!DOCTYPE html>" ++ "\n" ++ "<html").data.isPrefixOf docEn.toText.data = false := by
  decide

set_option maxRecDepth 100000 in
/-- C1 (amended): the displayed document text begins with the exact bytes
`<!DOCTYPE html>` followed by one newline, one space, and then
`<html lang="en" xmlns="http://www.w3.org/1999/xhtml">`, and it contains a
`<style>` element whose content is exactly `body{color:red}`. -/
theorem c1_theorem :
    ("<!DOCTYPE html>" ++ "\n"
        ++ " <html lang=\"en\" xmlns=\"http://www.w3.org/1999/xhtml\">").data.isPrefixOf
      docEn.toText.data = true
  ∧ containsSub ("<style>body\x7bcolor:red\x7d</style>").data docEn.toText.data = true :=
  ⟨by decide, by decide⟩

/-- C10 witness: `c10_theorem` at the concrete element `p` with no
attributes, at indent 0 with an empty buffer. -/
theorem c10_witness :
    ((HtmlElement.mk "p" [] none [] false).set_content "").write 0 ""
        = "" ++ wsPad 0 ++ "<" ++ "p" ++ attrsToString [] ++ ">" ++ "</" ++ "p" ++ ">"
  ∧ (HtmlElement.mk "p" [] none [] false).write 0 ""
        = "" ++ wsPad 0 ++ "<" ++ "p" ++ attrsToString [] ++ "/>"
  ∧ (HtmlElement.mk "p" [] none [] true).write 0 ""
        = "" ++ wsPad 0 ++ "<" ++ "p" ++ attrsToString [] ++ ">"
  ∧ ((HtmlElement.mk "p" [] none [] false).set_content "").write 0 ""
        ≠ (HtmlElement.mk "p" [] none [] false).write 0 ""
  ∧ ((HtmlElement.mk "p" [] none [] true).set_content "").write 0 ""
        ≠ (HtmlElement.mk "p" [] none [] true).write 0 "" :=
  c10_theorem "p" [] none 0 ""
